import Mathlib

/-!
Verification of the rubygems-crawler core (cache store, retry executor,
bulk worker pool, cached client decorator) against its specification.

The Go source is shallowly embedded: time is modelled as integer
nanoseconds, Go `time.Duration` as `Int`, the Go zero `time.Time` used as
the "never expires" marker is modelled as `Option Int` being `none`, and
the cache's internal `map[string]cacheItem` as a function
`String → Option (cacheItem V)`.  Goroutines do not act in the pure
model; their observable effects (the background sweep being stopped,
the worker pool's writes) are modelled explicitly where a claim needs
them.  Contexts are modelled as never cancelled, which is the regime all
the verified claims quantify over.
-/

namespace RubyGems

/-! ## Cache store (pkg/cache/cache.go) -/

/-- One cache entry, from `cacheItem` in pkg/cache/cache.go: the stored
value, the expiration instant (`none` models Go's zero `time.Time`,
meaning the entry never expires) and the creation instant. -/
structure cacheItem (V : Type) where
  value : V
  expiration : Option Int
  created : Int

/-- The in-memory cache `MemoryCache` of pkg/cache/cache.go.  The
`items` map is a function from keys to optional entries; `closed` is the
flag guarding `Close`, and doubles as the observable "the background
sweep has been stopped" fact (closing the `stopCleanup` channel is what
stops the sweep goroutine).  `Count` is not modelled (the function map
has no cardinality); no claim below needs it. -/
structure MemoryCache (V : Type) where
  defaultExpiration : Int
  cleanupInterval : Int
  items : String → Option (cacheItem V)
  closed : Bool

/-- `time.Hour` in nanoseconds, the fallback default expiration. -/
def goHour : Int := 3600000000000

/-- `NewMemoryCache`: a non-positive default expiration falls back to
one hour; the sweep goroutine itself is not part of the pure model. -/
def NewMemoryCache (V : Type) (defaultExpiration cleanupInterval : Int) :
    MemoryCache V :=
  { defaultExpiration := if defaultExpiration ≤ 0 then goHour else defaultExpiration
    cleanupInterval := cleanupInterval
    items := fun _ => none
    closed := false }

/-- `MemoryCache.Get` at instant `now`: absent keys and entries whose
expiration is set and strictly before `now` report not-found (`none`);
note the strict `item.expiration.Before(time.Now())` comparison, so an
entry is still found at exactly its expiration instant. -/
def MemoryCache.Get {V : Type} (c : MemoryCache V) (now : Int) (key : String) :
    Option V :=
  match c.items key with
  | none => none
  | some item =>
    match item.expiration with
    | some exp => if exp < now then none else some item.value
    | none => some item.value

/-- `MemoryCache.SetWithExpiration` at instant `now`: duration `0` is
replaced by the store's default, a positive duration sets the expiration
to `now + d`, and a non-positive one leaves the expiration unset (the
entry never expires). -/
def MemoryCache.SetWithExpiration {V : Type} (c : MemoryCache V) (now : Int)
    (key : String) (value : V) (d : Int) : MemoryCache V :=
  let d := if d = 0 then c.defaultExpiration else d
  let expiration : Option Int := if d > 0 then some (now + d) else none
  { c with items := fun k =>
      if k = key then some { value := value, expiration := expiration, created := now }
      else c.items k }

/-- `MemoryCache.Set`: store under the default expiration. -/
def MemoryCache.Set {V : Type} (c : MemoryCache V) (now : Int) (key : String)
    (value : V) : MemoryCache V :=
  c.SetWithExpiration now key value c.defaultExpiration

/-- `MemoryCache.Delete`. -/
def MemoryCache.Delete {V : Type} (c : MemoryCache V) (key : String) :
    MemoryCache V :=
  { c with items := fun k => if k = key then none else c.items k }

/-- `MemoryCache.Clear`. -/
def MemoryCache.Clear {V : Type} (c : MemoryCache V) : MemoryCache V :=
  { c with items := fun _ => none }

/-- `MemoryCache.Close`: guarded by the `closed` flag, so a second call
does nothing (in the Go source the guard prevents a second
`close(c.stopCleanup)`, which would panic). -/
def MemoryCache.Close {V : Type} (c : MemoryCache V) : MemoryCache V :=
  if c.closed then c else { c with closed := true }

/-! ## Retry executor (RetryOptions and SendRequestWithRetry) -/

/-- `RetryOptions` from the repository package.  `ShouldRetry` receives
the status code of a received HTTP response (if any) and the transport
error (if any); errors are modelled by their message string. -/
structure RetryOptions where
  MaxAttempts : Int
  WaitTime : Int
  MaxWaitTime : Int
  UseExponentialBackoff : Bool
  ShouldRetry : Option Nat → Option String → Bool

/-- The default retry classifier installed by `NewDefaultRetryOptions`:
retry on any transport error, retry on response status 429/500/502/503/504,
and do not retry otherwise (404 and other 4xx are not retried). -/
def defaultShouldRetry (resp : Option Nat) (err : Option String) : Bool :=
  match err with
  | some _ => true
  | none =>
    match resp with
    | some status =>
      status == 429 || status == 500 || status == 502 || status == 503 || status == 504
    | none => false

/-- `NewDefaultRetryOptions`: 3 attempts, 1s initial wait, 30s max wait,
exponential backoff on, default classifier. -/
def NewDefaultRetryOptions : RetryOptions :=
  { MaxAttempts := 3
    WaitTime := 1000000000
    MaxWaitTime := 30000000000
    UseExponentialBackoff := true
    ShouldRetry := defaultShouldRetry }

/-- Go's `1 << uint(s)` evaluated on a 64-bit `int`: shift counts of 64
or more yield 0, a shift by 63 wraps to the minimum `int64`, smaller
shifts give the exact power of two. -/
def goShl1 (s : Nat) : Int :=
  if s ≥ 64 then 0 else if s = 63 then -(2 ^ 63) else 2 ^ s

/-- The float64-to-int64 conversion performed by
`time.Duration(float64(...))` when the float64 holds an exact integer
value `x`: in range it is the identity, and a value outside the int64
range converts to the minimum int64 (the Go spec leaves overflow
implementation-dependent; `cvttsd2si` on amd64 — the platform of the
repository's CI — produces `0x8000000000000000`). -/
def goFloatToInt64 (x : Int) : Int :=
  if x < -(2 ^ 63) ∨ 2 ^ 63 - 1 < x then -(2 ^ 63) else x

/-- The wait computed at the top of `SendRequestWithRetry`'s loop for
iteration `attempt ≥ 1` (no wait precedes iteration 0): the plain
`WaitTime` without backoff; with backoff, the source computes
`waitTime = time.Duration(float64(waitTime) * float64(factor))` with
`factor = 1 << uint(attempt-1)` and only then caps the result at
`MaxWaitTime`.  The float64 product is modelled as exact integer
multiplication — exact whenever `0 ≤ WaitTime < 2^53`, since
`float64(WaitTime)` is then exact and multiplying a float64 by a power
of two only moves its exponent, and trivially exact at factor 0 —
followed by the amd64 int64 conversion `goFloatToInt64`.  In
particular a product beyond the int64 range becomes the minimum int64,
which is `≤ MaxWaitTime` and therefore BYPASSES the cap, leaving a
negative wait (a `time.After` that fires immediately). -/
def computeWaitTime (opts : RetryOptions) (attempt : Nat) : Int :=
  if opts.UseExponentialBackoff then
    if goFloatToInt64 (opts.WaitTime * goShl1 (attempt - 1)) > opts.MaxWaitTime then
      opts.MaxWaitTime
    else goFloatToInt64 (opts.WaitTime * goShl1 (attempt - 1))
  else
    opts.WaitTime

/-- Observable outcome of one `SendRequestWithRetry` call: how many
times the operation was invoked, the successive waits performed before
attempts 2, 3, … (chronological order; attempt 1 contributes no wait),
and the returned value and error. -/
structure RetryTrace (α : Type) where
  attempts : Nat
  waits : List Int
  value : α
  error : Option String

/-- The loop body of `SendRequestWithRetry`.  The operation `op` maps
the 0-based attempt index to the pair returned by
`requests.SendRequest` (response value, optional error message).  Note
the faithful quirk of the source: the local `shouldRetry` variable is
hardcoded to `true` whenever an error occurred, and
`RetryOptions.ShouldRetry` is never consulted; on success the result is
returned immediately.  When the fuel (remaining allowed attempts) runs
out, a recorded last error is wrapped in the distinct
"max retry attempts reached: " message; context cancellation during the
wait is not modelled (never-cancelled regime). -/
def retryLoop {α : Type} (opts : RetryOptions) (op : Nat → α × Option String) :
    Nat → Nat → α → Option String → RetryTrace α
  | a, 0, lastResp, lastErr =>
    { attempts := a
      waits := []
      value := lastResp
      error := lastErr.map (fun e => "max retry attempts reached: " ++ e) }
  | a, fuel + 1, _, _ =>
    let w : List Int := if a = 0 then [] else [computeWaitTime opts a]
    match (op a).2 with
    | none =>
      { attempts := a + 1, waits := w, value := (op a).1, error := none }
    | some e =>
      let r := retryLoop opts op (a + 1) fuel (op a).1 (some e)
      { r with waits := w ++ r.waits }

/-- `SendRequestWithRetry`, started at attempt index 0 with
`MaxAttempts` iterations allowed (`zero` is the Go zero value of the
response type, returned when no attempt runs).  The `nil`-options
default (substituting `NewDefaultRetryOptions`) is left to callers. -/
def SendRequestWithRetry {α : Type} (zero : α) (opts : RetryOptions)
    (op : Nat → α × Option String) : RetryTrace α :=
  retryLoop opts op 0 opts.MaxAttempts.toNat zero none

/-- An operation whose every attempt fails with an HTTP 404 response
error, used to exercise the retry executor on a non-retryable failure. -/
def op404 : Nat → String × Option String :=
  fun _ => ("", some "404 Not Found")

/-- Fixture options for retry witnesses: 2 attempts, no backoff. -/
def retryOptsTwo : RetryOptions :=
  { MaxAttempts := 2
    WaitTime := 100
    MaxWaitTime := 1000
    UseExponentialBackoff := false
    ShouldRetry := defaultShouldRetry }

/-- Fixture options for backoff witnesses: 3 attempts, backoff on. -/
def retryOptsBackoff : RetryOptions :=
  { MaxAttempts := 3
    WaitTime := 100
    MaxWaitTime := 1000
    UseExponentialBackoff := true
    ShouldRetry := defaultShouldRetry }

/-- An operation that fails on every attempt with a plain error. -/
def opAlwaysFail : Nat → String × Option String :=
  fun _ => ("r", some "boom")

/-- Fixture options reaching attempt 66: default waits, 100 attempts. -/
def retryOptsLong : RetryOptions :=
  { MaxAttempts := 100
    WaitTime := 1000000000
    MaxWaitTime := 30000000000
    UseExponentialBackoff := true
    ShouldRetry := defaultShouldRetry }

/-! ## Bulk executor (pkg/repository/bulk_operations.go) -/

/-- `BulkResult`: the requested key, the fetched value and the
per-key error. -/
structure BulkResult (V : Type) where
  Key : String
  Value : V
  Error : Option String
deriving DecidableEq

/-- `BulkOptions`. -/
structure BulkOptions where
  MaxConcurrency : Int
  ContinueOnError : Bool
deriving DecidableEq

/-- `NewBulkOptions`: concurrency 10, continue on error. -/
def NewBulkOptions : BulkOptions :=
  { MaxConcurrency := 10, ContinueOnError := true }

/-- `WithMaxConcurrency`: only positive values are accepted; a
non-positive argument leaves the options unchanged. -/
def BulkOptions.WithMaxConcurrency (o : BulkOptions) (maxConcurrency : Int) :
    BulkOptions :=
  if maxConcurrency > 0 then { o with MaxConcurrency := maxConcurrency } else o

/-- `WithContinueOnError`. -/
def BulkOptions.WithContinueOnError (o : BulkOptions) (continueOnError : Bool) :
    BulkOptions :=
  { o with ContinueOnError := continueOnError }

/-- The joint outcome of the worker goroutines of `runWorkerPool`.
The job channel is buffered with capacity `numJobs` and filled with the
indices `0, …, numJobs-1` before being closed, so receives hand out the
indices in that order no matter how the workers interleave; each
received index `i` is processed by writing slot `i` (the per-index slots
are disjoint, and the context is never cancelled in the regime modelled
here); a worker stops either when the drained channel closes or — with
`ContinueOnError = false` — right after it writes a result carrying an
error.  Since the workers run identical code, the outcome of every
interleaving is this single function of the queue and the number of
still-active workers: while at least one worker is active the head index
is processed, and each processed failure retires exactly one worker. -/
def runJobs {V : Type} (job : Nat → BulkResult V) (continueOnError : Bool) :
    List Nat → Nat → List (Option (BulkResult V)) → List (Option (BulkResult V))
  | [], _, slots => slots
  | i :: rest, active, slots =>
    if active = 0 then slots
    else
      runJobs job continueOnError rest
        (if !continueOnError && ((job i).Error).isSome then active - 1 else active)
        (slots.set i (some (job i)))

/-- `runWorkerPool`: the worker count is capped at the job count, the
result slice is preallocated with one nil slot per input index, and the
workers of `runJobs` fill it.  `numWorkers` below the cap is NOT raised:
zero workers process nothing, and a negative count makes
`sync.WaitGroup.Add` panic, modelled as `none`. -/
def runWorkerPool {V : Type} (numWorkers : Int) (numJobs : Nat)
    (job : Nat → BulkResult V) (continueOnError : Bool) :
    Option (List (Option (BulkResult V))) :=
  let w : Int := if numWorkers > (numJobs : Int) then (numJobs : Int) else numWorkers
  if w < 0 then none
  else some (runJobs job continueOnError (List.range numJobs) w.toNat
    (List.replicate numJobs none))

/-- The worker body shared by the four bulk methods: fetch the `i`-th
name with the single-item operation `op` (value and optional error
message) and record it under that name as key. -/
def bulkJob {V : Type} (names : List String) (op : String → V × Option String)
    (i : Nat) : BulkResult V :=
  { Key := names.getD i ""
    Value := (op (names.getD i "")).1
    Error := (op (names.getD i "")).2 }

/-- The common shape of `BulkGetPackages`, `BulkGetVersions`,
`BulkGetDependencies` and `BulkGetReverseDependencies`: the four Go
methods differ only in the single-item operation and its value type,
both abstracted here as `op` and `V`. -/
def bulkGet {V : Type} (names : List String) (op : String → V × Option String)
    (options : BulkOptions) : Option (List (Option (BulkResult V))) :=
  runWorkerPool options.MaxConcurrency names.length (bulkJob names op)
    options.ContinueOnError

/-- Minimal image of `models.PackageInformation`: only the name is
relevant to the verified logic. -/
structure PackageInformation where
  Name : String
deriving DecidableEq

/-- Minimal image of `models.Version`. -/
structure Version where
  Number : String
deriving DecidableEq

/-- Minimal image of `models.DependencyInfo`. -/
structure DependencyInfo where
  Name : String
deriving DecidableEq

/-- `BulkGetPackages` (value type `*models.PackageInformation`,
a nullable pointer, hence `Option`). -/
def BulkGetPackages (names : List String)
    (op : String → Option PackageInformation × Option String)
    (options : BulkOptions) : Option (List (Option (BulkResult (Option PackageInformation)))) :=
  bulkGet names op options

/-- `BulkGetVersions`. -/
def BulkGetVersions (names : List String)
    (op : String → List Version × Option String)
    (options : BulkOptions) : Option (List (Option (BulkResult (List Version)))) :=
  bulkGet names op options

/-- `BulkGetDependencies`. -/
def BulkGetDependencies (names : List String)
    (op : String → List DependencyInfo × Option String)
    (options : BulkOptions) : Option (List (Option (BulkResult (List DependencyInfo)))) :=
  bulkGet names op options

/-- `BulkGetReverseDependencies`. -/
def BulkGetReverseDependencies (names : List String)
    (op : String → List String × Option String)
    (options : BulkOptions) : Option (List (Option (BulkResult (List String)))) :=
  bulkGet names op options

/-- Number of failing jobs among the indices `s, …, s+len-1`. -/
def failIn {V : Type} (job : Nat → BulkResult V) (s len : Nat) : Nat :=
  ((List.range' s len).filter (fun j => ((job j).Error).isSome)).length

/-- Workers retired while processing `s, …, s+len-1`: none when errors
are tolerated, one per failing job otherwise. -/
def deathsIn {V : Type} (continueOnError : Bool) (job : Nat → BulkResult V)
    (s len : Nat) : Nat :=
  if continueOnError then 0 else failIn job s len

/-- Cap of `runWorkerPool` applied to the configured concurrency. -/
def effectiveWorkers (mc : Int) (n : Nat) : Nat :=
  (if mc > (n : Int) then (n : Int) else mc).toNat

/-- Single-item operation succeeding with the name itself. -/
def opBulkOk : String → String × Option String :=
  fun n => (n, none)

/-- Single-item operation failing exactly on the name "b". -/
def opFailOnB : String → Nat × Option String :=
  fun n => (0, if n = "b" then some "boom" else none)

/-! ## Cached client decorator (CachedRepository) -/

/-- Tagged payloads stored by the decorator in the untyped cache; the
Go code stores `interface{}` values and type-asserts on read.  Only the
payload kinds of the verified operations are carried. -/
inductive CacheVal where
  | pkg (p : PackageInformation)
  | pkgList (l : List PackageInformation)
deriving DecidableEq

/-- Go's `string(i)` conversion on an integer, as used for the page
number in the decorator's search key: the one-character string of the
code point `i`, except that every invalid code point (negative,
surrogate, above U+10FFFF) collapses to the replacement character
U+FFFD. -/
def goStringOfInt (i : Int) : String :=
  if 0 ≤ i ∧ i ≤ 1114111 ∧ ¬(55296 ≤ i ∧ i ≤ 57343) then
    String.mk [Char.ofNat i.toNat]
  else
    "�"

/-- Cache key of the decorator's `GetPackage`. -/
def packageCacheKey (gemName : String) : String :=
  "package:" ++ gemName

/-- Cache key of the decorator's `Search`; the page number goes through
Go's `string(page)` rune conversion. -/
def searchCacheKey (query : String) (page : Int) : String :=
  "search:" ++ query ++ ":" ++ goStringOfInt page

/-- Cache key of the decorator's `GetGemVersions`. -/
def versionsCacheKey (gemName : String) : String :=
  "versions:" ++ gemName

/-- Cache key of the decorator's `GetGemLatestVersion`. -/
def latestVersionCacheKey (gemName : String) : String :=
  "latest_version:" ++ gemName

/-- Cache key of the decorator's `VersionDownloads`. -/
def versionDownloadsCacheKey (gemName gemVersion : String) : String :=
  "version_downloads:" ++ gemName ++ ":" ++ gemVersion

/-- Cache key of the decorator's `GetDependencies`: the requested names
joined with "," (`strings.Join`). -/
def dependenciesCacheKey (gemNames : List String) : String :=
  "dependencies:" ++ String.intercalate "," gemNames

/-- The decorator state: the wrapped client is passed per call as a
function, so only the TTL, the cache and the `stopCleanupCh` channel
state (`true` once closed) are carried. -/
structure CachedRepository where
  defaultTTL : Int
  cache : MemoryCache CacheVal
  stopCleanupClosed : Bool

/-- `NewCachedRepository`: an absent cache is replaced by a fresh
memory cache whose cleanup interval is twice the TTL; the
`stopCleanupCh` channel starts open. -/
def NewCachedRepository (ttl : Int) (c : Option (MemoryCache CacheVal)) :
    CachedRepository :=
  { defaultTTL := ttl
    cache := c.getD (NewMemoryCache CacheVal ttl (ttl * 2))
    stopCleanupClosed := false }

/-- The hit test of the decorator's `GetPackage`: a cached value under
the package key that type-asserts to `*models.PackageInformation`; a
value of any other type falls through to the miss path. -/
def packageCacheHit (c : CachedRepository) (now : Int) (gemName : String) :
    Option PackageInformation :=
  match c.cache.Get now (packageCacheKey gemName) with
  | some (CacheVal.pkg p) => some p
  | _ => none

/-- The hit test of the decorator's `Search`. -/
def searchCacheHit (c : CachedRepository) (now : Int) (query : String)
    (page : Int) : Option (List PackageInformation) :=
  match c.cache.Get now (searchCacheKey query page) with
  | some (CacheVal.pkgList l) => some l
  | _ => none

/-- The decorator's `GetPackage`: on a well-typed hit return the cached
value; on a miss delegate to the inner client, propagate an error
without touching the cache, and store a success under this operation's
TTL (the full default TTL) before returning it. -/
def CachedRepository.GetPackage (c : CachedRepository) (now : Int)
    (gemName : String) (inner : String → Except String PackageInformation) :
    Except String PackageInformation × CachedRepository :=
  match packageCacheHit c now gemName with
  | some p => (Except.ok p, c)
  | none =>
    match inner gemName with
    | Except.error e => (Except.error e, c)
    | Except.ok p =>
      (Except.ok p,
       { c with cache := (c.cache.SetWithExpiration now (packageCacheKey gemName)
          (CacheVal.pkg p) c.defaultTTL) })

/-- The decorator's `Search`: same shape as `GetPackage` but volatile
results are stored at half the default TTL. -/
def CachedRepository.Search (c : CachedRepository) (now : Int) (query : String)
    (page : Int) (inner : String → Int → Except String (List PackageInformation)) :
    Except String (List PackageInformation) × CachedRepository :=
  match searchCacheHit c now query page with
  | some l => (Except.ok l, c)
  | none =>
    match inner query page with
    | Except.error e => (Except.error e, c)
    | Except.ok l =>
      (Except.ok l,
       { c with cache := (c.cache.SetWithExpiration now (searchCacheKey query page)
          (CacheVal.pkgList l) (c.defaultTTL / 2)) })

/-- The decorator's `Close`: exactly `close(c.stopCleanupCh)`.  Closing
an already-closed channel panics, modelled as `none`; the cache store's
own `Close` is never called, so the store's sweep keeps running. -/
def CachedRepository.Close (c : CachedRepository) : Option CachedRepository :=
  if c.stopCleanupClosed then none
  else some { c with stopCleanupClosed := true }

/-- A fresh decorator over a 10-minute-TTL memory cache. -/
def emptyCachedRepo : CachedRepository :=
  NewCachedRepository 600000000000 none

/-- Inner client whose `GetPackage` always fails. -/
def innerFailPkg : String → Except String PackageInformation :=
  fun _ => Except.error "boom"

/-- Inner client whose `GetPackage` succeeds with the name. -/
def innerOkPkg : String → Except String PackageInformation :=
  fun n => Except.ok { Name := n }

/-- Inner client whose `Search` returns an empty page. -/
def innerSearchEmpty : String → Int → Except String (List PackageInformation) :=
  fun _ _ => Except.ok []

/-! ## Theorems -/

/-- C2: the claim asserts `Get` returns found=false at every instant
`now ≥ setTime+d`.  The code's expiry test is strict
(`expiration.Before(now)`), so at exactly `now = setTime+d` the entry
is still found: with default TTL 3600s, setting "k" at time 0 with
d = 50 and reading at now = 50 returns the value, where the claim
requires not-found. -/
theorem cache_expiry_boundary_counterexample :
    MemoryCache.Get
      (MemoryCache.SetWithExpiration (NewMemoryCache String 3600000000000 0) 0 "k" "v" 50)
      50 "k" = some "v" ∧ (50 : Int) ≥ 0 + 50 := by
  constructor
  · rfl
  · decide

/-- C2 (amended): `SetWithExpiration` with `d = 0` is exactly a store
under the default TTL; with `d < 0` the entry never expires, so `Get`
finds it at every instant; with `d > 0` the entry expires at
`setTime + d`, and `Get` finds it exactly at the instants
`now ≤ setTime + d` (found=false only strictly after `setTime + d`,
not at it). -/
theorem cache_expiry_semantics {V : Type} (c : MemoryCache V) (t0 : Int)
    (k : String) (v : V) (d now : Int) :
    (d > 0 →
      ((c.SetWithExpiration t0 k v d).Get now k = some v ↔ now ≤ t0 + d)) ∧
    (d < 0 → (c.SetWithExpiration t0 k v d).Get now k = some v) ∧
    (c.SetWithExpiration t0 k v 0 = c.SetWithExpiration t0 k v c.defaultExpiration) := by
  refine ⟨?_, ?_, ?_⟩
  · intro hd
    have hd0 : ¬ d = 0 := by omega
    simp only [MemoryCache.SetWithExpiration, MemoryCache.Get, if_neg hd0, if_pos hd,
      if_pos rfl]
    constructor
    · intro h
      by_contra hnow
      have : t0 + d < now := by omega
      simp [this] at h
    · intro h
      have : ¬ t0 + d < now := by omega
      simp [this]
  · intro hd
    have hd0 : ¬ d = 0 := by omega
    have hdpos : ¬ d > 0 := by omega
    simp [MemoryCache.SetWithExpiration, MemoryCache.Get, if_neg hd0, if_neg hdpos]
  · simp [MemoryCache.SetWithExpiration]

/-- C2 amended-claim witness: concrete store, set at time 0 with
d = 50, read back at now = 30. -/
theorem cache_expiry_semantics_witness :
    MemoryCache.Get
      (MemoryCache.SetWithExpiration (NewMemoryCache String 3600000000000 0) 0 "k" "v" 50)
      30 "k" = some "v" :=
  ((cache_expiry_semantics (NewMemoryCache String 3600000000000 0) 0 "k" "v" 50 30).1
    (by decide)).mpr (by decide)

/-- Helper: a run of `retryLoop` on an operation that fails at every
attempt, started at attempt index `a ≥ 1`, invokes the operation once
per remaining fuel unit, waits `computeWaitTime` before each iteration,
and ends with the exhaustion error wrapping the last failure. -/
theorem retryLoop_allFail {α : Type} (opts : RetryOptions)
    (op : Nat → α × Option String) (hfail : ∀ k, ((op k).2).isSome) :
    ∀ (fuel a : Nat) (lastResp : α) (lastErr : Option String), 1 ≤ a →
      (retryLoop opts op a fuel lastResp lastErr).attempts = a + fuel ∧
      (retryLoop opts op a fuel lastResp lastErr).waits
        = (List.range' a fuel).map (computeWaitTime opts) ∧
      (retryLoop opts op a fuel lastResp lastErr).error
        = (match fuel with
           | 0 => lastErr
           | _ + 1 => (op (a + fuel - 1)).2).map
            (fun e => "max retry attempts reached: " ++ e) := by
  intro fuel
  induction fuel with
  | zero =>
    intro a lastResp lastErr ha
    exact ⟨rfl, rfl, rfl⟩
  | succ f ih =>
    intro a lastResp lastErr ha
    obtain ⟨e, he⟩ := Option.isSome_iff_exists.mp (hfail a)
    have ha0 : ¬ a = 0 := by omega
    simp only [retryLoop, he, if_neg ha0]
    obtain ⟨ih1, ih2, ih3⟩ := ih (a + 1) ((op a).1) (some e) (by omega)
    refine ⟨?_, ?_, ?_⟩
    · rw [ih1]; omega
    · rw [ih2, List.range'_succ]
      simp
    · rw [ih3]
      rcases f with _ | f
      · simp [he]
      · have : a + 1 + (f + 1) - 1 = a + (f + 1 + 1) - 1 := by omega
        rw [this]

/-- Helper: `SendRequestWithRetry` on an always-failing operation with
`MaxAttempts = m ≥ 1` makes exactly `m` attempts, performs the waits
`computeWaitTime 1, …, computeWaitTime (m-1)` in order (none before the
first attempt), and returns the exhaustion error wrapping the failure
of the last attempt. -/
theorem sendRetry_allFail {α : Type} (zero : α) (opts : RetryOptions)
    (op : Nat → α × Option String) (m : Nat)
    (hm : opts.MaxAttempts = (m : Int)) (hm1 : 1 ≤ m)
    (hfail : ∀ k, ((op k).2).isSome) :
    (SendRequestWithRetry zero opts op).attempts = m ∧
    (SendRequestWithRetry zero opts op).waits
      = (List.range' 1 (m - 1)).map (computeWaitTime opts) ∧
    (SendRequestWithRetry zero opts op).error
      = ((op (m - 1)).2).map (fun e => "max retry attempts reached: " ++ e) := by
  have htn : opts.MaxAttempts.toNat = m := by rw [hm]; exact Int.toNat_natCast m
  unfold SendRequestWithRetry
  rw [htn]
  obtain ⟨m', rfl⟩ : ∃ m', m = m' + 1 := ⟨m - 1, by omega⟩
  obtain ⟨e, he⟩ := Option.isSome_iff_exists.mp (hfail 0)
  simp only [retryLoop, he, if_pos rfl]
  obtain ⟨h1, h2, h3⟩ := retryLoop_allFail opts op hfail m' 1 ((op 0).1) (some e) (by omega)
  refine ⟨?_, ?_, ?_⟩
  · simpa [Nat.add_comm] using h1
  · simpa using h2
  · rw [h3]
    rcases m' with _ | m'
    · simp [he]
    · simp

/-- C6: with `MaxAttempts = m ≥ 1` and an operation failing at every
attempt with a retryable classification, the executor makes exactly `m`
attempts and returns the distinct retries-exhausted error wrapping the
last failure's message, which differs from the raw failure itself. -/
theorem retry_exhausts_max_attempts {α : Type} (zero : α) (opts : RetryOptions)
    (op : Nat → α × Option String) (m : Nat)
    (hm : opts.MaxAttempts = (m : Int)) (hm1 : 1 ≤ m)
    (hfail : ∀ k, ((op k).2).isSome)
    (hretryable : ∀ k e, (op k).2 = some e → opts.ShouldRetry none (some e) = true) :
    (SendRequestWithRetry zero opts op).attempts = m ∧
    (SendRequestWithRetry zero opts op).error
      = ((op (m - 1)).2).map (fun e => "max retry attempts reached: " ++ e) ∧
    (SendRequestWithRetry zero opts op).error ≠ (op (m - 1)).2 := by
  obtain ⟨h1, _, h3⟩ := sendRetry_allFail zero opts op m hm hm1 hfail
  refine ⟨h1, h3, ?_⟩
  obtain ⟨e, he⟩ := Option.isSome_iff_exists.mp (hfail (m - 1))
  rw [h3, he]
  intro hcontra
  have : "max retry attempts reached: " ++ e = e := Option.some.inj (by simpa using hcontra)
  have hlen := congrArg String.length this
  rw [String.length_append] at hlen
  have h28 : ("max retry attempts reached: ").length = 28 := rfl
  rw [h28] at hlen
  omega

/-- C6 witness: two attempts, both failing with "boom". -/
theorem retry_exhausts_max_attempts_witness :
    (SendRequestWithRetry "" retryOptsTwo opAlwaysFail).attempts = 2 ∧
    (SendRequestWithRetry "" retryOptsTwo opAlwaysFail).error
      = ((opAlwaysFail 1).2).map (fun e => "max retry attempts reached: " ++ e) ∧
    (SendRequestWithRetry "" retryOptsTwo opAlwaysFail).error ≠ (opAlwaysFail 1).2 :=
  retry_exhausts_max_attempts "" retryOptsTwo opAlwaysFail 2 rfl (by decide)
    (fun _ => rfl) (fun _ e h => by cases h; rfl)

/-- C7 (amended): attempt 1 fires with no delay (an `m`-attempt run
performs `m - 1` waits), and the wait before attempt `k` (for
`2 ≤ k ≤ m`, `k ≤ 64`, nonnegative `WaitTime`) is `computeWaitTime`
at `k - 1`, which equals: `WaitTime` when exponential backoff is
disabled; `min (WaitTime × 2^(k-2)) MaxWaitTime` when it is enabled
AND the product fits in int64; and — the cap bypassed — the minimum
int64 (a negative, immediately-firing wait) when the product exceeds
the int64 range, which the float64-to-Duration conversion saturates on
the repository's amd64 platform.  Beyond `k = 64` the factor
`1 << uint(k-2)` itself wraps (see the counterexample). -/
theorem backoff_wait_schedule {α : Type} (zero : α) (opts : RetryOptions)
    (op : Nat → α × Option String) (m k : Nat)
    (hm : opts.MaxAttempts = (m : Int)) (hm1 : 1 ≤ m)
    (hfail : ∀ j, ((op j).2).isSome)
    (hk2 : 2 ≤ k) (hkm : k ≤ m) (hk64 : k ≤ 64)
    (hwt : 0 ≤ opts.WaitTime) :
    (SendRequestWithRetry zero opts op).waits.length = m - 1 ∧
    (SendRequestWithRetry zero opts op).waits[k - 2]?
      = some (computeWaitTime opts (k - 1)) ∧
    (opts.UseExponentialBackoff = false →
      computeWaitTime opts (k - 1) = opts.WaitTime) ∧
    (opts.UseExponentialBackoff = true →
      opts.WaitTime * 2 ^ (k - 2) ≤ 2 ^ 63 - 1 →
      computeWaitTime opts (k - 1)
        = min (opts.WaitTime * 2 ^ (k - 2)) opts.MaxWaitTime) ∧
    (opts.UseExponentialBackoff = true →
      2 ^ 63 - 1 < opts.WaitTime * 2 ^ (k - 2) →
      -(2 ^ 63) ≤ opts.MaxWaitTime →
      computeWaitTime opts (k - 1) = -(2 ^ 63)) := by
  obtain ⟨-, h2, -⟩ := sendRetry_allFail zero opts op m hm hm1 hfail
  have hfac : goShl1 (k - 1 - 1) = 2 ^ (k - 2) := by
    have hsh : k - 1 - 1 = k - 2 := by omega
    rw [hsh]
    unfold goShl1
    rw [if_neg (by omega), if_neg (by omega)]
  have hp0 : (0 : Int) ≤ opts.WaitTime * 2 ^ (k - 2) :=
    mul_nonneg hwt (by positivity)
  refine ⟨?_, ?_, ?_, ?_, ?_⟩
  · rw [h2]; simp
  · rw [h2]
    have hlt : k - 2 < m - 1 := by omega
    rw [List.getElem?_map, List.getElem?_range' 1 1 hlt]
    have hidx : 1 + 1 * (k - 2) = k - 1 := by omega
    rw [hidx]
    simp
  · intro hb
    unfold computeWaitTime
    rw [if_neg (by simp [hb])]
  · intro hb hfit
    unfold computeWaitTime
    rw [if_pos hb, hfac]
    have hin : goFloatToInt64 (opts.WaitTime * 2 ^ (k - 2))
        = opts.WaitTime * 2 ^ (k - 2) := by
      unfold goFloatToInt64
      rw [if_neg (by omega)]
    rw [hin]
    generalize opts.WaitTime * 2 ^ (k - 2) = w
    rcases le_or_lt w opts.MaxWaitTime with h | h
    · rw [if_neg (by omega), min_eq_left h]
    · rw [if_pos (by omega), min_eq_right (by omega)]
  · intro hb hover hmax
    unfold computeWaitTime
    rw [if_pos hb, hfac]
    have hout : goFloatToInt64 (opts.WaitTime * 2 ^ (k - 2)) = -(2 ^ 63) := by
      unfold goFloatToInt64
      rw [if_pos (Or.inr hover)]
    rw [hout, if_neg (by omega)]

/-- C7 amended-claim witness, both regimes.  In range: 100ns initial
wait, backoff on, the wait before attempt 3 is min(100×2, 1000) = 200.
Overflowing: 1s initial wait, the product at attempt 36 is
10⁹×2³⁴ > 2⁶³−1, so the wait saturates to the minimum int64 and the
30s cap is bypassed. -/
theorem backoff_wait_schedule_witness :
    (SendRequestWithRetry "" retryOptsBackoff opAlwaysFail).waits[3 - 2]?
      = some (min (retryOptsBackoff.WaitTime * 2 ^ (3 - 2)) retryOptsBackoff.MaxWaitTime) ∧
    (SendRequestWithRetry "" retryOptsLong opAlwaysFail).waits[36 - 2]?
      = some (-(2 ^ 63)) := by
  constructor
  · obtain ⟨-, h2, -, h4, -⟩ :=
      backoff_wait_schedule "" retryOptsBackoff opAlwaysFail 3 3 rfl (by decide)
        (fun _ => rfl) (by decide) (by decide) (by decide) (by decide)
    rw [h2, h4 rfl (by decide)]
  · obtain ⟨-, h2, -, -, h5⟩ :=
      backoff_wait_schedule "" retryOptsLong opAlwaysFail 100 36 rfl (by decide)
        (fun _ => rfl) (by decide) (by decide) (by decide) (by decide)
    rw [h2, h5 rfl (by decide) (by decide)]

/-- C7 counterexample: the claim's formula
`initialWait × 2^(k-2)` capped at `maxWait` fails at two kinds of
attempts under 1s initial wait and 30s max wait.  At `k = 36` the
int64 conversion saturates the overflowing product to the minimum
int64, bypassing the cap: the wait is negative instead of the
demanded 30s.  At `k = 66` the Go shift `1 << uint(64)` wraps the
factor to 0, so the wait is 0 instead of 30s. -/
theorem backoff_overflow_counterexample :
    computeWaitTime retryOptsLong 35 = -(2 ^ 63) ∧
    (-(2 ^ 63) : Int) ≠ min (retryOptsLong.WaitTime * 2 ^ (36 - 2)) retryOptsLong.MaxWaitTime ∧
    (SendRequestWithRetry "" retryOptsLong opAlwaysFail).waits[66 - 2]? = some 0 ∧
    computeWaitTime retryOptsLong 65 = 0 ∧
    (0 : Int) ≠ min (retryOptsLong.WaitTime * 2 ^ (66 - 2)) retryOptsLong.MaxWaitTime := by
  refine ⟨by decide, by decide, ?_, rfl, by decide⟩
  obtain ⟨-, h2, -⟩ :=
    sendRetry_allFail "" retryOptsLong opAlwaysFail 100 rfl (by decide) (fun _ => rfl)
  rw [h2, List.getElem?_map, List.getElem?_range' 1 1 (by decide)]
  rfl

/-- C1: the claim requires exactly one attempt when the failure is
classified non-retryable by the policy (the default policy classifies a
received 404 as non-retryable).  The source of `SendRequestWithRetry`
never consults `RetryOptions.ShouldRetry` — it retries every error — so
under the default options an operation failing with a 404 response
error is attempted `MaxAttempts = 3` times, not once. -/
theorem retry_nonretryable_still_retried :
    NewDefaultRetryOptions.MaxAttempts = 3 ∧
    defaultShouldRetry (some 404) none = false ∧
    (SendRequestWithRetry "" NewDefaultRetryOptions op404).attempts = 3 ∧
    (SendRequestWithRetry "" NewDefaultRetryOptions op404).attempts ≠ 1 := by
  refine ⟨rfl, rfl, rfl, by decide⟩

/-- Helper: with no active worker the queue is never received. -/
theorem runJobs_active_zero {V : Type} (job : Nat → BulkResult V) (cont : Bool)
    (q : List Nat) (slots : List (Option (BulkResult V))) :
    runJobs job cont q 0 slots = slots := by
  cases q <;> simp [runJobs]

/-- Helper: no deaths over an empty range. -/
theorem deathsIn_zero {V : Type} (cont : Bool) (job : Nat → BulkResult V) (s : Nat) :
    deathsIn cont job s 0 = 0 := by
  cases cont <;> rfl

/-- Helper: failing-job count over an extended range. -/
theorem failIn_succ {V : Type} (job : Nat → BulkResult V) (s t : Nat) :
    failIn job s (t + 1)
      = (if ((job s).Error).isSome then 1 else 0) + failIn job (s + 1) t := by
  rw [failIn, failIn, List.range'_succ, List.filter_cons]
  by_cases h : ((job s).Error).isSome
  · simp [h, Nat.add_comm]
  · simp [h]

/-- Elementwise characterization of the worker pool run on the queue
`s, …, s+m-1`: slot `i` is written with the `i`-th job's result exactly
when `i` lies in the dispatched range, fewer workers have died before
reaching it than were active, and the slot exists; all other slots keep
their previous content. -/
theorem runJobs_char {V : Type} (job : Nat → BulkResult V) (cont : Bool) :
    ∀ (m s active : Nat) (slots : List (Option (BulkResult V))) (i : Nat),
      (runJobs job cont (List.range' s m) active slots)[i]?
        = if s ≤ i ∧ i < s + m ∧ deathsIn cont job s (i - s) < active ∧ i < slots.length
          then some (some (job i)) else slots[i]? := by
  intro m
  induction m with
  | zero =>
    intro s active slots i
    rw [if_neg (by omega)]
    rfl
  | succ m ih =>
    intro s active slots i
    rw [List.range'_succ]
    by_cases hact : active = 0
    · subst hact
      rw [runJobs_active_zero, if_neg (by omega)]
    · show (runJobs job cont (s :: List.range' (s + 1) m) active slots)[i]? = _
      rw [runJobs, if_neg hact, ih]
      simp only [List.length_set]
      by_cases his : i = s
      · subst his
        rw [if_neg (by omega), List.getElem?_set]
        rw [if_pos rfl]
        by_cases hlen : i < slots.length
        · rw [if_pos hlen,
            if_pos ⟨Nat.le_refl i, by omega, by rw [Nat.sub_self, deathsIn_zero]; omega, hlen⟩]
        · rw [if_neg hlen, if_neg (by intro h; exact hlen h.2.2.2),
            List.getElem?_eq_none (by omega)]
      · rw [List.getElem?_set_ne (fun h => his h.symm)]
        by_cases hsi : s + 1 ≤ i
        · have hd : deathsIn cont job s (i - s)
              = (if !cont && ((job s).Error).isSome then 1 else 0)
                + deathsIn cont job (s + 1) (i - (s + 1)) := by
            cases cont with
            | true => simp [deathsIn]
            | false =>
              have hsplit : i - s = (i - (s + 1)) + 1 := by omega
              simp only [deathsIn, if_neg (Bool.false_ne_true), hsplit]
              rw [failIn_succ]
              simp
          refine if_congr ?_ rfl rfl
          constructor
          · rintro ⟨-, h2, h3, h4⟩
            refine ⟨by omega, by omega, ?_, h4⟩
            rw [hd]
            by_cases hf : (!cont && ((job s).Error).isSome) = true
            · rw [if_pos hf] at h3 ⊢
              omega
            · rw [if_neg hf] at h3 ⊢
              omega
          · rintro ⟨-, h2, h3, h4⟩
            refine ⟨hsi, by omega, ?_, h4⟩
            rw [hd] at h3
            by_cases hf : (!cont && ((job s).Error).isSome) = true
            · rw [if_pos hf] at h3 ⊢
              omega
            · rw [if_neg hf] at h3 ⊢
              omega
        · rw [if_neg (by omega), if_neg (by omega)]

/-- C3: with `ContinueOnError = true`, any `MaxConcurrency ≥ 1` and a
never-cancelled context, each of the bulk operations returns exactly one
result per input name, in input order, each keyed by the name that
produced it (so the keys are in bijection with the inputs); an empty
input list yields an empty result list. -/
theorem bulk_complete_in_order {V : Type} (names : List String)
    (op : String → V × Option String) (mc : Int) (hmc : 1 ≤ mc) :
    bulkGet names op { MaxConcurrency := mc, ContinueOnError := true }
      = some (names.map (fun name =>
          some { Key := name, Value := (op name).1, Error := (op name).2 })) := by
  have hstart : bulkGet names op { MaxConcurrency := mc, ContinueOnError := true }
      = runWorkerPool mc names.length (bulkJob names op) true := rfl
  rw [hstart]
  unfold runWorkerPool
  rw [if_neg (by split <;> omega)]
  congr 1
  apply List.ext_getElem?
  intro i
  rw [List.range_eq_range', runJobs_char]
  simp only [List.length_replicate]
  by_cases hi : i < names.length
  · have hw : 0 < (if mc > (names.length : Int) then (names.length : Int) else mc).toNat := by
      split <;> omega
    rw [if_pos ⟨by omega, by omega, by simpa [deathsIn] using hw, hi⟩,
      List.getElem?_map, List.getElem?_eq_getElem hi]
    simp only [Option.map_some']
    have hname : names.getD i "" = names[i] := by
      rw [List.getD_eq_getElem?_getD, List.getElem?_eq_getElem hi]
      rfl
    simp only [bulkJob, hname]
  · rw [if_neg (by intro h; exact hi h.2.2.2), List.getElem?_replicate, if_neg hi,
      List.getElem?_map, List.getElem?_eq_none (by omega)]
    rfl

/-- C3 witness: three names fetched with concurrency 2. -/
theorem bulk_complete_in_order_witness :
    bulkGet ["a", "b", "c"] opBulkOk { MaxConcurrency := 2, ContinueOnError := true }
      = some ((["a", "b", "c"]).map (fun name =>
          some { Key := name, Value := (opBulkOk name).1, Error := (opBulkOk name).2 })) :=
  bulk_complete_in_order ["a", "b", "c"] opBulkOk 2 (by decide)

/-- C4 (amended): with `ContinueOnError = false` each worker stops only
after the first failure it processes itself; the remaining workers keep
receiving new keys, so dispatch stops only once as many failures have
been processed as there were workers.  The returned slice always has
length N: slot `i` holds the `i`-th key's result exactly when fewer than
`min(MaxConcurrency, N)` failures precede index `i` (in particular the
first failing key's result is always present), and every key beyond the
stopping point is left as a nil placeholder. -/
theorem bulk_failfast_characterization {V : Type} (names : List String)
    (op : String → V × Option String) (mc : Int) (hmc : 1 ≤ mc) :
    bulkGet names op { MaxConcurrency := mc, ContinueOnError := false }
      = some ((List.range names.length).map (fun i =>
          if failIn (bulkJob names op) 0 i < effectiveWorkers mc names.length
          then some (bulkJob names op i) else none)) := by
  have hstart : bulkGet names op { MaxConcurrency := mc, ContinueOnError := false }
      = runWorkerPool mc names.length (bulkJob names op) false := rfl
  rw [hstart]
  unfold runWorkerPool
  rw [if_neg (by split <;> omega)]
  congr 1
  apply List.ext_getElem?
  intro i
  rw [List.range_eq_range', runJobs_char]
  simp only [List.length_replicate]
  have hrange : (List.range' 0 names.length)[i]? = if i < names.length then some i else none := by
    by_cases hi : i < names.length
    · rw [if_pos hi, List.getElem?_range' 0 1 hi]
      simp
    · rw [if_neg hi, List.getElem?_eq_none (by rw [List.length_range']; omega)]
  by_cases hi : i < names.length
  · rw [List.getElem?_map, hrange, if_pos hi]
    simp only [Option.map_some']
    have hdeaths : deathsIn false (bulkJob names op) 0 (i - 0)
        = failIn (bulkJob names op) 0 i := by
      simp [deathsIn]
    by_cases hcut : failIn (bulkJob names op) 0 i < effectiveWorkers mc names.length
    · rw [if_pos ⟨by omega, by omega, by rw [hdeaths]; exact hcut, hi⟩, if_pos hcut]
    · rw [if_neg (by rintro ⟨-, -, h3, -⟩; rw [hdeaths] at h3; exact hcut h3), if_neg hcut,
        List.getElem?_replicate, if_pos hi]
  · rw [if_neg (by intro h; exact hi h.2.2.2), List.getElem?_replicate, if_neg hi,
      List.getElem?_map, hrange, if_neg hi]
    rfl

/-- C4 amended-claim witness: one worker, names "b" (failing) then "g":
the failing slot is filled, "g" is never dispatched and stays nil. -/
theorem bulk_failfast_characterization_witness :
    bulkGet ["b", "g"] opFailOnB { MaxConcurrency := 1, ContinueOnError := false }
      = some ((List.range (["b", "g"]).length).map (fun i =>
          if failIn (bulkJob ["b", "g"] opFailOnB) 0 i < effectiveWorkers 1 (["b", "g"]).length
          then some (bulkJob ["b", "g"] opFailOnB i) else none)) :=
  bulk_failfast_characterization ["b", "g"] opFailOnB 1 (by decide)

/-- C4 counterexample.  First part: with two workers over
["b","g1","g2","g3"] where only "b" fails, all four keys are processed
— after the failure is observed, the keys "g2" and "g3" are still newly
dispatched to the surviving worker, contradicting "once a worker
observes the first failure no new keys are dispatched (in-flight work
may finish)", which would allow at most 1 + (2-1) = 2 processed keys.
Second part: with one worker over ["b","g"], the returned slice still
has length 2 = N, with a nil placeholder for the undispatched key "g" —
not a size-≤-N list free of placeholder entries. -/
theorem bulk_failfast_claim_counterexample :
    bulkGet ["b", "g1", "g2", "g3"] opFailOnB { MaxConcurrency := 2, ContinueOnError := false }
      = some [some { Key := "b", Value := 0, Error := some "boom" },
              some { Key := "g1", Value := 0, Error := none },
              some { Key := "g2", Value := 0, Error := none },
              some { Key := "g3", Value := 0, Error := none }] ∧
    bulkGet ["b", "g"] opFailOnB { MaxConcurrency := 1, ContinueOnError := false }
      = some [some { Key := "b", Value := 0, Error := some "boom" }, none] := by
  exact ⟨by decide, by decide⟩

/-- C9 (amended): the bulk executor does not clamp a non-positive
`MaxConcurrency` to 1.  With `MaxConcurrency = 0` zero workers are
spawned and no key is processed: the call returns a slice of N nil
slots.  With `MaxConcurrency < 0` the worker pool's `WaitGroup` counter
goes negative, a panic.  Non-positive values are instead rejected at
the option setter: `WithMaxConcurrency` ignores them, keeping the
previous value (default 10). -/
theorem bulk_zero_concurrency_behavior :
    (∀ (V : Type) (names : List String) (op : String → V × Option String) (cont : Bool),
      bulkGet names op { MaxConcurrency := 0, ContinueOnError := cont }
        = some (List.replicate names.length none)) ∧
    (∀ (o : BulkOptions) (m : Int), m ≤ 0 → o.WithMaxConcurrency m = o) ∧
    (∀ (V : Type) (names : List String) (op : String → V × Option String) (cont : Bool)
      (mc : Int), mc < 0 →
      bulkGet names op { MaxConcurrency := mc, ContinueOnError := cont } = none) := by
  refine ⟨?_, ?_, ?_⟩
  · intro V names op cont
    have hstart : bulkGet names op { MaxConcurrency := 0, ContinueOnError := cont }
        = runWorkerPool 0 names.length (bulkJob names op) cont := rfl
    rw [hstart]
    unfold runWorkerPool
    rw [if_neg (by split <;> omega)]
    have hzero : (if (0 : Int) > (names.length : Int) then (names.length : Int) else 0).toNat
        = 0 := by split <;> omega
    rw [hzero, runJobs_active_zero]
  · intro o m hm
    rw [BulkOptions.WithMaxConcurrency, if_neg (by omega)]
  · intro V names op cont mc hmc
    have hstart : bulkGet names op { MaxConcurrency := mc, ContinueOnError := cont }
        = runWorkerPool mc names.length (bulkJob names op) cont := rfl
    rw [hstart]
    unfold runWorkerPool
    rw [if_pos (by split <;> omega)]

/-- C9 amended-claim witness: one name under `MaxConcurrency = 0` and
under `MaxConcurrency = -1`, plus the setter guard at 0. -/
theorem bulk_zero_concurrency_behavior_witness :
    bulkGet ["a"] opBulkOk { MaxConcurrency := 0, ContinueOnError := true }
      = some (List.replicate (["a"]).length none) ∧
    NewBulkOptions.WithMaxConcurrency 0 = NewBulkOptions ∧
    bulkGet ["a"] opBulkOk { MaxConcurrency := -1, ContinueOnError := true } = none :=
  ⟨bulk_zero_concurrency_behavior.1 String ["a"] opBulkOk true,
   bulk_zero_concurrency_behavior.2.1 NewBulkOptions 0 (by decide),
   bulk_zero_concurrency_behavior.2.2 String ["a"] opBulkOk true (-1) (by decide)⟩

/-- C9 counterexample: with `MaxConcurrency = 0` over the single name
"a", the result slot stays nil — the key is never processed — whereas
treating the option as `MaxConcurrency = 1`, as the claim requires,
would produce the processed result. -/
theorem bulk_zero_concurrency_counterexample :
    bulkGet ["a"] opBulkOk { MaxConcurrency := 0, ContinueOnError := true } = some [none] ∧
    bulkGet ["a"] opBulkOk { MaxConcurrency := 1, ContinueOnError := true }
      = some [some { Key := "a", Value := "a", Error := none }] ∧
    (some [(none : Option (BulkResult String))]
      ≠ some [some { Key := "a", Value := "a", Error := none }]) := by
  refine ⟨by decide, by decide, by decide⟩

/-- Helper: `String.data` distributes over append. -/
theorem string_data_append (s t : String) : (s ++ t).data = s.data ++ t.data := by
  cases s
  cases t
  rfl

/-- Helper: the first character of an append is the first character of
its nonempty left part. -/
theorem append_head_left (a b : String) (c : Char)
    (h : a.data.head? = some c) : (a ++ b).data.head? = some c := by
  rw [string_data_append]
  rcases ha : a.data with _ | ⟨x, xs⟩
  · rw [ha] at h
    cases h
  · rw [ha] at h
    rw [List.cons_append, List.head?_cons] at *
    exact h

/-- Helper: strings with different first characters differ. -/
theorem string_head_ne (s t : String) (c d : Char)
    (hs : s.data.head? = some c) (ht : t.data.head? = some d) (hcd : c ≠ d) :
    s ≠ t := by
  intro h
  rw [h, ht] at hs
  exact hcd (Option.some.inj hs).symm

/-- C5 counterexample: the key derivation is not injective.  Within
`GetDependencies` the names are joined with "," so the one-name call on
"a,b" and the two-name call on "a","b" share a key; within
`VersionDownloads` the name and version are joined with ":" so
("a:b","c") and ("a","b:c") share a key.  In both cases the parameter
combinations differ. -/
theorem cache_key_collision_counterexample :
    dependenciesCacheKey ["a,b"] = dependenciesCacheKey ["a", "b"] ∧
    (["a,b"] : List String) ≠ ["a", "b"] ∧
    versionDownloadsCacheKey "a:b" "c" = versionDownloadsCacheKey "a" "b:c" ∧
    (("a:b", "c") : String × String) ≠ ("a", "b:c") := by
  refine ⟨by decide, by decide, by decide, by decide⟩

/-- C5 (amended): the key derivation is a pure function of the
operation and its parameters (determinism is definitional), and keys of
distinct operations never collide — shown here for the three
operations named by the claim, whose key prefixes start with distinct
characters — but within a multi-parameter operation distinct parameter
combinations can collide, since parameters are joined with unescaped
"," and ":" (see the counterexample). -/
theorem cache_key_cross_op_distinct (q : String) (p : Int) (ns : List String)
    (n v : String) :
    searchCacheKey q p ≠ dependenciesCacheKey ns ∧
    searchCacheKey q p ≠ versionDownloadsCacheKey n v ∧
    dependenciesCacheKey ns ≠ versionDownloadsCacheKey n v := by
  have hs : (searchCacheKey q p).data.head? = some 's' :=
    append_head_left _ _ _ (append_head_left _ _ _ (append_head_left _ _ _ (by decide)))
  have hd : (dependenciesCacheKey ns).data.head? = some 'd' :=
    append_head_left _ _ _ (by decide)
  have hv : (versionDownloadsCacheKey n v).data.head? = some 'v' :=
    append_head_left _ _ _ (append_head_left _ _ _ (append_head_left _ _ _ (by decide)))
  exact ⟨string_head_ne _ _ _ _ hs hd (by decide),
         string_head_ne _ _ _ _ hs hv (by decide),
         string_head_ne _ _ _ _ hd hv (by decide)⟩

/-- C8: on a cache miss (including the well-typed-hit test failing) the
decorator delegates to the inner client; an inner error is propagated
with the cache left untouched — so a subsequent identical call misses
again and consults the inner client again — and an inner success is
stored under the operation's TTL (the full default TTL for
`GetPackage`, half of it for `Search`) and returned. -/
theorem cached_miss_path (c : CachedRepository) (now : Int)
    (gemName query : String) (page : Int)
    (innerP : String → Except String PackageInformation)
    (innerS : String → Int → Except String (List PackageInformation))
    (hmissP : packageCacheHit c now gemName = none)
    (hmissS : searchCacheHit c now query page = none) :
    (∀ e, innerP gemName = Except.error e →
      c.GetPackage now gemName innerP = (Except.error e, c)) ∧
    (∀ p, innerP gemName = Except.ok p →
      c.GetPackage now gemName innerP
        = (Except.ok p, { c with cache := (c.cache.SetWithExpiration now
            (packageCacheKey gemName) (CacheVal.pkg p) c.defaultTTL) })) ∧
    (∀ e, innerS query page = Except.error e →
      c.Search now query page innerS = (Except.error e, c)) ∧
    (∀ l, innerS query page = Except.ok l →
      c.Search now query page innerS
        = (Except.ok l, { c with cache := (c.cache.SetWithExpiration now
            (searchCacheKey query page) (CacheVal.pkgList l) (c.defaultTTL / 2)) })) := by
  refine ⟨?_, ?_, ?_, ?_⟩ <;> intro x hx <;>
    simp [CachedRepository.GetPackage, CachedRepository.Search, hmissP, hmissS, hx]

/-- C8 witness: an empty decorator; a failing inner call leaves the
state unchanged, a succeeding one populates the cache. -/
theorem cached_miss_path_witness :
    emptyCachedRepo.GetPackage 0 "g" innerFailPkg
      = (Except.error "boom", emptyCachedRepo) ∧
    emptyCachedRepo.GetPackage 0 "g" innerOkPkg
      = (Except.ok { Name := "g" },
         { emptyCachedRepo with cache := (emptyCachedRepo.cache.SetWithExpiration 0
            (packageCacheKey "g") (CacheVal.pkg { Name := "g" })
            emptyCachedRepo.defaultTTL) }) :=
  ⟨(cached_miss_path emptyCachedRepo 0 "g" "q" 1 innerFailPkg innerSearchEmpty
      rfl rfl).1 "boom" rfl,
   (cached_miss_path emptyCachedRepo 0 "g" "q" 1 innerOkPkg innerSearchEmpty
      rfl rfl).2.1 { Name := "g" } rfl⟩

/-- C10: the claim says `CachedRepository.Close` releases the cache
store's sweep exactly once and a second call is a harmless no-op.  The
code does neither: `Close` only runs `close(c.stopCleanupCh)` — a
channel no goroutine listens on — so the first call leaves the store's
sweep running (`cache.Close` is never called, the store's `closed` flag
stays false), and a second call closes an already-closed channel, a
panic.  The store's own `MemoryCache.Close` is, by contrast,
idempotent, as the last conjunct shows. -/
theorem cached_close_not_idempotent :
    ((CachedRepository.Close (NewCachedRepository 600000000000 none)).map
        (fun c => c.cache.closed) = some false) ∧
    ((CachedRepository.Close (NewCachedRepository 600000000000 none)).bind
        CachedRepository.Close = none) ∧
    (∀ (V : Type) (mc : MemoryCache V), (mc.Close).Close = mc.Close) := by
  refine ⟨rfl, rfl, ?_⟩
  intro V mc
  by_cases h : mc.closed
  · simp [MemoryCache.Close, h]
  · simp [MemoryCache.Close, h]

end RubyGems
